/-
Verification of the cron-job-server (src/index.js): a shallow embedding of
its data model (persisted job map, active timer map), its scheduler core
(startJob, the delete handler, initializeJobs), its HTTP handlers
(POST /jobs, GET /jobs, DELETE /jobs/:id), the API-key middleware and the
per-fire delivery request, together with proofs of the specified properties.

Modelling conventions:
- JavaScript objects and the `activeJobs` Map are association lists
  `List (String × α)` preserving insertion order; property update replaces
  in place, as JS object assignment and Map.set do.
- `undefined` string-valued data (absent body fields, absent headers,
  absent cronSecret) is `Option String`; JS truthiness of such a value
  (`!x`) is `jsTruthy`: false exactly on `none` and `some ""`.
- External library calls are parameters: `cron.validate` (and the parser
  inside `cron.schedule`) is an explicit `cv : String → Bool` argument,
  `new URL(url)` success is `uv : String → Bool`, the wall clock
  (`new Date().toISOString()`) is a `now : String` argument, and the
  outcome of the outbound `fetch` is a `FireOutcome` argument.
- `cron.schedule` on an expression its parser rejects throws; this is the
  `Except.error` branch of `startJob`.
-/

import Mathlib

namespace CronServer

/-! ## JSON values (the shape of the persisted file and of response bodies) -/

inductive Json where
  | str (s : String)
  | num (n : Nat)
  | obj (fields : List (String × Json))

/-- Keys of a JSON object (`Object.keys`); `none` on a non-object. -/
def Json.keys : Json → Option (List String)
  | .obj fields => some (fields.map Prod.fst)
  | _ => none

/-! ## Association-list primitives for JS objects and Maps -/

/-- Property read `m[k]` / `Map.get`: first binding of the key. -/
def lookupA (m : List (String × α)) (k : String) : Option α :=
  match m with
  | [] => none
  | (k', v) :: rest => if k' = k then some v else lookupA rest k

/-- Key test `Map.has` / truthiness of `m[k]` for object-valued entries. -/
def hasKey (m : List (String × α)) (k : String) : Bool :=
  match m with
  | [] => false
  | (k', _) :: rest => k' = k || hasKey rest k

/-- Property write `m[k] = v` / `Map.set`: replace in place, else append. -/
def setKey (m : List (String × α)) (k : String) (v : α) : List (String × α) :=
  match m with
  | [] => [(k, v)]
  | (k', v') :: rest => if k' = k then (k, v) :: rest else (k', v') :: setKey rest k v

/-- Property removal `delete m[k]` / `Map.delete`: remove the binding of the key. -/
def eraseKey (m : List (String × α)) (k : String) : List (String × α) :=
  match m with
  | [] => []
  | (k', v') :: rest => if k' = k then rest else (k', v') :: eraseKey rest k

/-- Update the value bound to `k` in place (mutation of the stored object). -/
def mapAt (m : List (String × α)) (k : String) (f : α → α) : List (String × α) :=
  match m with
  | [] => []
  | (k', v') :: rest => if k' = k then (k', f v') :: rest else (k', v') :: mapAt rest k f

/-- Each key is bound at most once (JS objects and Maps by construction). -/
def keysNodup : List (String × α) → Bool
  | [] => true
  | (k, _) :: rest => !hasKey rest k && keysNodup rest

/-- JS truthiness of a possibly-undefined string: `undefined` and `""` are falsy. -/
def jsTruthy : Option String → Bool
  | none => false
  | some s => !s.isEmpty

/-! ## Data model -/

/-- A persisted job record, as written by POST /jobs: `{url, schedule,
cronSecret?, createdAt, createdBy}`. `cronSecret = none` means the key is
absent from the file (JSON.stringify drops `undefined` properties). -/
structure JobRecord where
  url : String
  schedule : String
  cronSecret : Option String
  createdAt : String
  createdBy : String
  deriving DecidableEq, Repr

/-- The persisted store: a JSON object keyed by job id. -/
abbrev JobMap := List (String × JobRecord)

/-- A live `node-cron` task as held in `activeJobs`: the closure captures
`url`, `schedule` and `cronSecret`; `running` is cleared by `.stop()`. -/
structure Timer where
  schedule : String
  url : String
  cronSecret : Option String
  running : Bool
  deriving DecidableEq, Repr

/-- The `activeJobs` Map: job id to its cron task. -/
abbrev ActiveMap := List (String × Timer)

/-- The effect of `task.stop()`. -/
def stopTimer (t : Timer) : Timer :=
  { t with running := false }

/-! ## Scheduler core: startJob -/

/-- The function `startJob(id, url, schedule, cronSecret)`: stop the existing task for
`id` if any, then `cron.schedule` the new one (which throws when the parser
`cv` rejects the expression) and store it under `id`. Returns the thrown
error, if any, together with the resulting `activeJobs` state. -/
def startJob (cv : String → Bool) (active : ActiveMap)
    (id url schedule : String) (cronSecret : Option String) :
    Except String Unit × ActiveMap :=
  let stopped := if hasKey active id then mapAt active id stopTimer else active
  if cv schedule then
    (Except.ok (), setKey stopped id
      { schedule := schedule, url := url, cronSecret := cronSecret, running := true })
  else
    (Except.error "Invalid cron expression", stopped)

/-- Startup replay `initializeJobs`: run every persisted entry through `startJob`,
passing that entry's url, schedule and cronSecret. -/
def initializeJobs (cv : String → Bool) (jobs : JobMap) : ActiveMap :=
  jobs.foldl
    (fun active p => (startJob cv active p.1 p.2.url p.2.schedule p.2.cronSecret).2) []

/-! ## The per-fire callback: delivery request and error handling -/

/-- The outbound call the cron callback issues when the job fires:
`fetch(url, { method: "POST", headers })` with `Content-Type` always set
and `Authorization: Bearer <secret>` added only when `cronSecret` is truthy. -/
structure OutRequest where
  url : String
  method : String
  headers : List (String × String)
  deriving DecidableEq, Repr

def fireRequest (url : String) (cronSecret : Option String) : OutRequest :=
  { url := url
    method := "POST"
    headers :=
      ("Content-Type", "application/json") ::
        (if jsTruthy cronSecret then
          [("Authorization", "Bearer " ++ cronSecret.getD "")]
        else []) }

/-- The request a stored task issues on each fire. -/
def Timer.fire (t : Timer) : OutRequest :=
  fireRequest t.url t.cronSecret

/-- Outcome of the awaited `fetch`: a response status, or a thrown error. -/
inductive FireOutcome where
  | success (status : Nat)
  | failure (err : String)
  deriving DecidableEq, Repr

/-- A `console.log` / `console.error` line written by the callback. -/
structure LogEntry where
  timestamp : String
  message : String
  isError : Bool
  deriving DecidableEq, Repr

/-- The body of the cron callback after the `fetch` settles: log success,
or catch the error and log it; `activeJobs` is never touched. -/
def fireJob (now : String) (id : String) (outcome : FireOutcome)
    (active : ActiveMap) : LogEntry × ActiveMap :=
  match outcome with
  | .success st =>
      ({ timestamp := now
         message := "Job " ++ id ++ " executed: " ++ toString st
         isError := false }, active)
  | .failure e =>
      ({ timestamp := now
         message := "Error executing job " ++ id ++ ": " ++ e
         isError := true }, active)

/-! ## Persistence: saveJobs / loadJobs (JSON encoding of the job map) -/

/-- The JSON written for one record by `saveJobs` (`JSON.stringify` keeps
insertion order `url, schedule, cronSecret, createdAt, createdBy` and drops
the `cronSecret` property when it is `undefined`). -/
def encodeJobRecord (r : JobRecord) : Json :=
  .obj ([("url", .str r.url), ("schedule", .str r.schedule)] ++
    (match r.cronSecret with
     | some s => [("cronSecret", .str s)]
     | none => []) ++
    [("createdAt", .str r.createdAt), ("createdBy", .str r.createdBy)])

/-- The file content written by `saveJobs`: an object keyed by job id. -/
def encodeJobs (jobs : JobMap) : Json :=
  .obj (jobs.map fun p => (p.1, encodeJobRecord p.2))

/-- Read a string-valued property. -/
def getStr (fields : List (String × Json)) (k : String) : Option String :=
  match lookupA fields k with
  | some (.str s) => some s
  | _ => none

/-- Interpret parsed JSON as a job record, as the handlers do by property
access; `cronSecret` is optional. -/
def decodeJobRecord : Json → Option JobRecord
  | .obj fields =>
      match getStr fields "url", getStr fields "schedule",
            getStr fields "createdAt", getStr fields "createdBy" with
      | some u, some s, some ca, some cb =>
          some { url := u, schedule := s, cronSecret := getStr fields "cronSecret",
                 createdAt := ca, createdBy := cb }
      | _, _, _, _ => none
  | _ => none

/-- Interpret the entries of the parsed file, entry by entry. -/
def decodeJobEntries : List (String × Json) → Option JobMap
  | [] => some []
  | p :: rest =>
      match decodeJobRecord p.2, decodeJobEntries rest with
      | some r, some m => some ((p.1, r) :: m)
      | _, _ => none

/-- Interpret the parsed file (`loadJobs` = `JSON.parse` of it) as a job map. -/
def decodeJobs : Json → Option JobMap
  | .obj entries => decodeJobEntries entries
  | _ => none

/-! ## HTTP layer -/

structure HttpResponse where
  status : Nat
  body : Json

def jsonError (msg : String) : Json := .obj [("error", .str msg)]

/-- Body of a POST /jobs request; absent fields are `none`. -/
structure PostBody where
  id : Option String
  url : Option String
  schedule : Option String
  cronSecret : Option String
  deriving DecidableEq, Repr

/-- Result of the POST /jobs handler: the response sent, the persisted map
after `saveJobs`, and the `activeJobs` map after `startJob`. -/
structure PostResult where
  response : HttpResponse
  jobs : JobMap
  active : ActiveMap

/-- The POST /jobs handler (after the API-key middleware): require
`id`/`url`/`schedule`, validate the schedule with `cron.validate` (`cv`),
validate the URL with `new URL` (`uv`); on success persist the record,
start the job and answer with the job sans secret. -/
def postJob (cv uv : String → Bool) (now : String) (jobs : JobMap)
    (active : ActiveMap) (body : PostBody) : PostResult :=
  if !jsTruthy body.id || !jsTruthy body.url || !jsTruthy body.schedule then
    ⟨⟨400, jsonError "Missing required fields"⟩, jobs, active⟩
  else
    let id := body.id.getD ""
    let url := body.url.getD ""
    let schedule := body.schedule.getD ""
    if !cv schedule then
      ⟨⟨400, jsonError "Invalid cron schedule"⟩, jobs, active⟩
    else if !uv url then
      ⟨⟨400, jsonError "Invalid URL format"⟩, jobs, active⟩
    else
      let jobRecord : JobRecord :=
        { url := url, schedule := schedule, cronSecret := body.cronSecret,
          createdAt := now, createdBy := "JIMEX-X" }
      ⟨⟨200, .obj
          [("message", .str "Job added successfully"),
           ("job", .obj
             [("id", .str id), ("url", .str url), ("schedule", .str schedule),
              ("createdAt", .str now), ("createdBy", .str "JIMEX-X")])]⟩,
        setKey jobs id jobRecord,
        (startJob cv active id url schedule body.cronSecret).2⟩

/-- The rest-spread `const { cronSecret, ...safeJob } = job`: every own
property except `cronSecret`, in order. -/
def sanitizeJobJson : Json → Json
  | .obj fields => .obj (fields.filter fun p => p.1 ≠ "cronSecret")
  | j => j

/-- The GET /jobs handler body on the loaded file object. -/
def listJobsJson : Json → Json
  | .obj entries => .obj (entries.map fun p => (p.1, sanitizeJobJson p.2))
  | j => j

/-- The GET /jobs handler: load the persisted map, redact each record's
`cronSecret`, answer 200. -/
def listJobs (jobs : JobMap) : HttpResponse :=
  ⟨200, listJobsJson (encodeJobs jobs)⟩

/-- Result of the DELETE /jobs/:id handler. -/
structure DeleteResult where
  response : HttpResponse
  jobs : JobMap
  active : ActiveMap

/-- The DELETE /jobs/:id handler: 404 when the id is not persisted;
otherwise stop and drop the live timer if present, remove the persisted
entry, save, answer 200. -/
def deleteJob (jobs : JobMap) (active : ActiveMap) (id : String) : DeleteResult :=
  match lookupA jobs id with
  | none => ⟨⟨404, jsonError "Job not found"⟩, jobs, active⟩
  | some _ =>
      ⟨⟨200, .obj [("message", .str "Job deleted successfully")]⟩,
        eraseKey jobs id,
        if hasKey active id then eraseKey (mapAt active id stopTimer) id else active⟩

/-- An incoming HTTP request as the middleware sees it. -/
structure Request where
  headers : List (String × String)
  deriving DecidableEq, Repr

def unauthorizedResponse : HttpResponse :=
  ⟨401, jsonError "Unauthorized - Invalid API Key"⟩

/-- The middleware `apiKeyMiddleware`: read `x-api-key`, reject with 401 when it is falsy
or differs (strict comparison) from `process.env.API_KEY`; otherwise call
`next()`, passing the request through unchanged. -/
def apiKeyMiddleware (envApiKey : Option String) (req : Request) :
    Except HttpResponse Request :=
  let apiKey := lookupA req.headers "x-api-key"
  if jsTruthy apiKey = false ∨ apiKey ≠ envApiKey then
    .error unauthorizedResponse
  else
    .ok req

/-! ## A run of the mutating operations on the active-timer map -/

/-- One mutation of the `activeJobs` map: a `startJob` call or the
timer-removal step of the DELETE handler. -/
inductive Op where
  | start (id url schedule : String) (cronSecret : Option String)
  | del (id : String)

/-- Effect of one operation on `activeJobs`. -/
def applyOp (cv : String → Bool) (active : ActiveMap) : Op → ActiveMap
  | .start id url schedule sec => (startJob cv active id url schedule sec).2
  | .del id =>
      if hasKey active id then eraseKey (mapAt active id stopTimer) id else active

/-- The `activeJobs` map after a sequence of operations from process start
(the map is born empty). -/
def applyOps (cv : String → Bool) (ops : List Op) : ActiveMap :=
  ops.foldl (applyOp cv) []

/-- A record with its secret dropped. -/
def eraseSecret (r : JobRecord) : JobRecord :=
  { r with cronSecret := none }

/-- The conjunction of the three POST /jobs checks: required fields
present, schedule accepted by `cron.validate`, URL accepted by `new URL`. -/
def postValid (cv uv : String → Bool) (body : PostBody) : Bool :=
  jsTruthy body.id && jsTruthy body.url && jsTruthy body.schedule &&
    cv (body.schedule.getD "") && uv (body.url.getD "")

/-! ## Association-list lemmas -/

theorem lookupA_setKey_self (m : List (String × α)) (k : String) (v : α) :
    lookupA (setKey m k v) k = some v := by
  induction m with
  | nil => simp [setKey, lookupA]
  | cons p rest ih =>
      by_cases h : p.1 = k
      · simp [setKey, lookupA, h]
      · simpa [setKey, lookupA, h] using ih

theorem lookupA_setKey_ne (m : List (String × α)) (k k' : String) (v : α)
    (h : k ≠ k') : lookupA (setKey m k v) k' = lookupA m k' := by
  induction m with
  | nil => simp [setKey, lookupA, h]
  | cons p rest ih =>
      by_cases hp : p.1 = k
      · subst hp
        simp [setKey, lookupA, h]
      · simp only [setKey, if_neg hp, lookupA]
        by_cases hp' : p.1 = k'
        · simp [hp']
        · simp [hp', ih]

theorem lookupA_mapAt_self (m : List (String × α)) (k : String) (f : α → α)
    (v : α) (h : lookupA m k = some v) : lookupA (mapAt m k f) k = some (f v) := by
  induction m with
  | nil => simp [lookupA] at h
  | cons p rest ih =>
      by_cases hp : p.1 = k
      · simp only [lookupA, if_pos hp] at h
        cases h
        simp [mapAt, hp, lookupA]
      · simp only [lookupA, if_neg hp] at h
        simp [mapAt, hp, lookupA, ih h]

theorem lookupA_mapAt_ne (m : List (String × α)) (k k' : String) (f : α → α)
    (h : k ≠ k') : lookupA (mapAt m k f) k' = lookupA m k' := by
  induction m with
  | nil => simp [mapAt]
  | cons p rest ih =>
      by_cases hp : p.1 = k
      · subst hp
        simp [mapAt, lookupA, h]
      · simp only [mapAt, if_neg hp, lookupA]
        by_cases hp' : p.1 = k'
        · simp [hp']
        · simp [hp', ih]

theorem hasKey_eq_isSome_lookupA (m : List (String × α)) (k : String) :
    hasKey m k = (lookupA m k).isSome := by
  induction m with
  | nil => simp [hasKey, lookupA]
  | cons p rest ih =>
      by_cases hp : p.1 = k
      · simp [hasKey, lookupA, hp]
      · simp [hasKey, lookupA, hp, ih]

theorem hasKey_setKey (m : List (String × α)) (k k' : String) (v : α) :
    hasKey (setKey m k v) k' = (hasKey m k' || k = k') := by
  induction m with
  | nil => simp [setKey, hasKey, eq_comm]
  | cons p rest ih =>
      by_cases hp : p.1 = k
      · subst hp
        by_cases hk : p.1 = k'
        · simp [setKey, hasKey, hk]
        · simp [setKey, hasKey, hk, eq_comm]
      · simp only [setKey, if_neg hp, hasKey, ih]
        by_cases hk : p.1 = k'
        · simp [hk]
        · simp [hk, Bool.or_assoc]

theorem hasKey_mapAt (m : List (String × α)) (k k' : String) (f : α → α) :
    hasKey (mapAt m k f) k' = hasKey m k' := by
  induction m with
  | nil => simp [mapAt]
  | cons p rest ih =>
      by_cases hp : p.1 = k
      · simp [mapAt, hasKey, hp]
      · simp [mapAt, hasKey, hp, ih]

theorem hasKey_of_hasKey_eraseKey (m : List (String × α)) (k k' : String)
    (h : hasKey (eraseKey m k) k' = true) : hasKey m k' = true := by
  induction m with
  | nil => simpa [eraseKey] using h
  | cons p rest ih =>
      by_cases hp : p.1 = k
      · simp only [eraseKey, if_pos hp] at h
        simp [hasKey, h]
      · simp only [eraseKey, if_neg hp, hasKey] at h
        rcases Bool.or_eq_true_iff.mp h with h1 | h2
        · simp [hasKey, h1]
        · simp [hasKey, ih h2]

theorem keysNodup_setKey (m : List (String × α)) (k : String) (v : α)
    (h : keysNodup m = true) : keysNodup (setKey m k v) = true := by
  induction m with
  | nil => simp [setKey, keysNodup, hasKey]
  | cons p rest ih =>
      simp only [keysNodup, Bool.and_eq_true, Bool.not_eq_true'] at h
      by_cases hp : p.1 = k
      · subst hp
        simp [setKey, keysNodup, h.1, h.2]
      · simp only [setKey, if_neg hp, keysNodup, Bool.and_eq_true, Bool.not_eq_true']
        refine ⟨?_, ih h.2⟩
        rw [hasKey_setKey, h.1]
        simpa [eq_comm] using hp


theorem keysNodup_eraseKey (m : List (String × α)) (k : String)
    (h : keysNodup m = true) : keysNodup (eraseKey m k) = true := by
  induction m with
  | nil => simpa [eraseKey] using h
  | cons p rest ih =>
      simp only [keysNodup, Bool.and_eq_true, Bool.not_eq_true'] at h
      by_cases hp : p.1 = k
      · simpa [eraseKey, hp] using h.2
      · simp only [eraseKey, if_neg hp, keysNodup, Bool.and_eq_true, Bool.not_eq_true']
        refine ⟨?_, ih h.2⟩
        by_cases he : hasKey (eraseKey rest k) p.1
        · exact absurd (hasKey_of_hasKey_eraseKey rest k p.1 he) (by simp [h.1])
        · simpa using he

theorem keysNodup_mapAt (m : List (String × α)) (k : String) (f : α → α)
    (h : keysNodup m = true) : keysNodup (mapAt m k f) = true := by
  induction m with
  | nil => simpa [mapAt] using h
  | cons p rest ih =>
      simp only [keysNodup, Bool.and_eq_true, Bool.not_eq_true'] at h
      by_cases hp : p.1 = k
      · subst hp
        simp [mapAt, keysNodup, h.1, h.2]
      · simp only [mapAt, if_neg hp, keysNodup, Bool.and_eq_true, Bool.not_eq_true']
        exact ⟨by rw [hasKey_mapAt]; exact h.1, ih h.2⟩

/-- The startJob operation preserves key uniqueness of the active map. -/
theorem keysNodup_startJob (cv : String → Bool) (active : ActiveMap)
    (id url schedule : String) (sec : Option String)
    (h : keysNodup active = true) :
    keysNodup (startJob cv active id url schedule sec).2 = true := by
  unfold startJob
  have hstopped : keysNodup
      (if hasKey active id then mapAt active id stopTimer else active) = true := by
    by_cases hk : hasKey active id
    · simpa [hk] using keysNodup_mapAt active id stopTimer h
    · simpa [hk] using h
  by_cases hc : cv schedule
  · simpa [hc] using keysNodup_setKey _ id _ hstopped
  · simpa [hc] using hstopped

/-- Every single mutating operation preserves key uniqueness. -/
theorem keysNodup_applyOp (cv : String → Bool) (active : ActiveMap) (op : Op)
    (h : keysNodup active = true) : keysNodup (applyOp cv active op) = true := by
  cases op with
  | start id url schedule sec => exact keysNodup_startJob cv active id url schedule sec h
  | del id =>
      simp only [applyOp]
      by_cases hk : hasKey active id
      · simpa [hk] using keysNodup_eraseKey _ id (keysNodup_mapAt active id stopTimer h)
      · simpa [hk] using h

theorem keysNodup_applyOps (cv : String → Bool) (ops : List Op) :
    keysNodup (applyOps cv ops) = true := by
  suffices h : ∀ active : ActiveMap, keysNodup active = true →
      keysNodup (ops.foldl (applyOp cv) active) = true by
    exact h [] rfl
  induction ops with
  | nil => intro active h; simpa using h
  | cons op rest ih =>
      intro active h
      exact ih _ (keysNodup_applyOp cv active op h)

/-- A `startJob` call for a different id does not disturb an entry. -/
theorem lookupA_startJob_ne (cv : String → Bool) (active : ActiveMap)
    (id id' url schedule : String) (sec : Option String) (h : id' ≠ id) :
    lookupA (startJob cv active id' url schedule sec).2 id = lookupA active id := by
  unfold startJob
  have hstopped : lookupA
      (if hasKey active id' then mapAt active id' stopTimer else active) id
      = lookupA active id := by
    by_cases hk : hasKey active id'
    · simpa [hk] using lookupA_mapAt_ne active id' id stopTimer h
    · simp [hk]
  by_cases hc : cv schedule
  · simpa [hc] using (lookupA_setKey_ne _ id' id _ h).trans hstopped
  · simpa [hc] using hstopped

/-! ## Serialization lemmas -/

/-- Decoding inverts encoding on one record. -/
theorem decodeJobRecord_encodeJobRecord (r : JobRecord) :
    decodeJobRecord (encodeJobRecord r) = some r := by
  obtain ⟨u, s, cs, ca, cb⟩ := r
  cases cs with
  | none => simp [encodeJobRecord, decodeJobRecord, getStr, lookupA]
  | some sec => simp [encodeJobRecord, decodeJobRecord, getStr, lookupA]

theorem decodeJobEntries_map (jobs : JobMap) :
    decodeJobEntries (jobs.map fun p => (p.1, encodeJobRecord p.2)) = some jobs := by
  induction jobs with
  | nil => rfl
  | cons p rest ih =>
      simp [decodeJobEntries, decodeJobRecord_encodeJobRecord, ih]

/-- Decoding inverts encoding on the whole persisted map: the durable
representation round-trips exactly. -/
theorem decodeJobs_encodeJobs (jobs : JobMap) :
    decodeJobs (encodeJobs jobs) = some jobs := by
  simp [decodeJobs, encodeJobs, decodeJobEntries_map]

/-- The rest-spread redaction performed by GET /jobs equals encoding the
record with its secret dropped. -/
theorem sanitizeJobJson_encodeJobRecord (r : JobRecord) :
    sanitizeJobJson (encodeJobRecord r) = encodeJobRecord (eraseSecret r) := by
  obtain ⟨u, s, cs, ca, cb⟩ := r
  cases cs with
  | none => simp [encodeJobRecord, sanitizeJobJson, eraseSecret]
  | some sec => simp [encodeJobRecord, sanitizeJobJson, eraseSecret]

/-- The GET /jobs body, computed from the redacted store. -/
theorem listJobs_eq (jobs : JobMap) :
    listJobs jobs =
      ⟨200, .obj ((jobs.map fun p => (p.1, eraseSecret p.2)).map
        fun p => (p.1, encodeJobRecord p.2))⟩ := by
  simp [listJobs, listJobsJson, encodeJobs, sanitizeJobJson_encodeJobRecord]

theorem not_hasKey_forall (m : List (String × α)) (k : String)
    (h : hasKey m k = false) : ∀ p ∈ m, p.1 ≠ k := by
  induction m with
  | nil => intro p hp; cases hp
  | cons q rest ih =>
      simp only [hasKey, Bool.or_eq_false_iff] at h
      intro p hp
      rcases List.mem_cons.mp hp with rfl | hp'
      · simpa using h.1
      · exact ih h.2 p hp'

/-- Replaying jobs for other ids never disturbs an entry of the active map. -/
theorem lookupA_foldStart_notin (cv : String → Bool) (rest : JobMap)
    (active : ActiveMap) (id : String) (h : ∀ q ∈ rest, q.1 ≠ id) :
    lookupA (rest.foldl
      (fun a q => (startJob cv a q.1 q.2.url q.2.schedule q.2.cronSecret).2) active) id
      = lookupA active id := by
  induction rest generalizing active with
  | nil => rfl
  | cons q rest ih =>
      rw [List.foldl_cons, ih _ fun r hr => h r (List.mem_cons_of_mem q hr)]
      exact lookupA_startJob_ne cv active id q.1 q.2.url q.2.schedule q.2.cronSecret
        (h q (List.mem_cons_self q rest))

/-- Startup replay arms a running timer, with its persisted configuration,
for every persisted entry (given unique ids and valid schedules). -/
theorem lookupA_initFold (cv : String → Bool) (jobs : JobMap) (active : ActiveMap)
    (hcv : ∀ p ∈ jobs, cv p.2.schedule = true) (hnd : keysNodup jobs = true) :
    ∀ p ∈ jobs, lookupA (jobs.foldl
      (fun a q => (startJob cv a q.1 q.2.url q.2.schedule q.2.cronSecret).2) active) p.1
      = some { schedule := p.2.schedule, url := p.2.url,
               cronSecret := p.2.cronSecret, running := true } := by
  induction jobs generalizing active with
  | nil => intro p hp; cases hp
  | cons q rest ih =>
      simp only [keysNodup, Bool.and_eq_true, Bool.not_eq_true'] at hnd
      intro p hp
      rcases List.mem_cons.mp hp with rfl | hp'
      · rw [List.foldl_cons,
          lookupA_foldStart_notin cv rest _ p.1 (not_hasKey_forall rest p.1 hnd.1)]
        have hq : cv p.2.schedule = true := hcv p (List.mem_cons_self p rest)
        unfold startJob
        simp only [hq, if_true]
        exact lookupA_setKey_self _ p.1 _
      · exact ih _ (fun r hr => hcv r (List.mem_cons_of_mem q hr)) hnd.2 p hp'

/-! ## The claims -/

/-- C1: at most one live timer per job id, ever: `startJob` stops any timer
already registered for the id before storing the new one, so after any
sequence of startJob/delete operations the `activeJobs` map binds each
registered id exactly once, to a running timer armed with the most recently
supplied schedule. -/
theorem one_live_timer_per_id (cv : String → Bool) :
    (∀ ops : List Op, keysNodup (applyOps cv ops) = true) ∧
    (∀ (active : ActiveMap) (id url schedule : String) (sec : Option String),
      cv schedule = true →
      (startJob cv active id url schedule sec).2 =
        setKey (if hasKey active id then mapAt active id stopTimer else active) id
          { schedule := schedule, url := url, cronSecret := sec, running := true } ∧
      lookupA (startJob cv active id url schedule sec).2 id =
        some { schedule := schedule, url := url, cronSecret := sec, running := true }) := by
  constructor
  · intro ops
    exact keysNodup_applyOps cv ops
  · intro active id url schedule sec hcv
    constructor
    · unfold startJob
      simp [hcv]
    · unfold startJob
      simp only [hcv, if_true]
      exact lookupA_setKey_self _ id _

/-- C1 witness: re-registering id "a" with a new schedule leaves one timer
for "a", armed with the new schedule. -/
theorem one_live_timer_per_id_witness :
    keysNodup (applyOps (fun _ => true)
      [Op.start "a" "https://e.com/h" "* * * * *" none,
       Op.start "a" "https://e.com/h" "0 * * * *" none]) = true ∧
    lookupA (startJob (fun _ => true)
        [("a", { schedule := "* * * * *", url := "https://e.com/h",
                 cronSecret := none, running := true })]
        "a" "https://e.com/h" "0 * * * *" none).2 "a" =
      some { schedule := "0 * * * *", url := "https://e.com/h",
             cronSecret := none, running := true } :=
  ⟨(one_live_timer_per_id (fun _ => true)).1 _,
   ((one_live_timer_per_id (fun _ => true)).2
      [("a", { schedule := "* * * * *", url := "https://e.com/h",
               cronSecret := none, running := true })]
      "a" "https://e.com/h" "0 * * * *" none rfl).2⟩

/-- C3: DELETE /jobs/:id on an id absent from the persisted map answers
404 without throwing and leaves both the persisted map and the active-timer
map exactly as they were. -/
theorem delete_absent_id_is_noop (jobs : JobMap) (active : ActiveMap)
    (id : String) (h : lookupA jobs id = none) :
    (deleteJob jobs active id).jobs = jobs ∧
    (deleteJob jobs active id).active = active ∧
    (deleteJob jobs active id).response.status = 404 := by
  simp [deleteJob, h]

/-- C3 witness: deleting an unknown id from the empty store is a no-op. -/
theorem delete_absent_id_is_noop_witness :
    (deleteJob [] [] "ghost").jobs = [] ∧
    (deleteJob [] [] "ghost").active = [] ∧
    (deleteJob [] [] "ghost").response.status = 404 :=
  delete_absent_id_is_noop [] [] "ghost" rfl

/-- C5, as stated, is false of the code: with a running timer registered
for "a", a `startJob` for "a" whose schedule fails to parse does NOT leave
the active map untouched — the old timer is stopped before `cron.schedule`
throws. -/
theorem start_invalid_leaves_timer_counterexample :
    ¬ ((startJob (fun _ => false)
        [("a", { schedule := "* * * * *", url := "https://e.com/h",
                 cronSecret := none, running := true })]
        "a" "https://e.com/h" "not-a-cron-expr" none).2 =
      [("a", { schedule := "* * * * *", url := "https://e.com/h",
               cronSecret := none, running := true })]) := by
  decide

/-- C5 amended: a `startJob` whose schedule fails to parse reports the
failure to the caller (the thrown error propagates; it is never silently
swallowed), but the previously-running timer is not left untouched:
`startJob` stops it before attempting to schedule the new one, so the timer
for that id remains registered but stopped. -/
theorem start_invalid_reports_and_stops_old (cv : String → Bool)
    (active : ActiveMap) (id url schedule : String) (sec : Option String)
    (t : Timer) (hcv : cv schedule = false) (ht : lookupA active id = some t) :
    (startJob cv active id url schedule sec).1 =
      Except.error "Invalid cron expression" ∧
    lookupA (startJob cv active id url schedule sec).2 id = some (stopTimer t) := by
  have hk : hasKey active id = true := by
    rw [hasKey_eq_isSome_lookupA, ht]
    rfl
  unfold startJob
  simp [hcv, hk, lookupA_mapAt_self active id stopTimer t ht]

/-- C5 amended, witness: the failed call errors and the old timer for "a"
is left registered but stopped. -/
theorem start_invalid_reports_and_stops_old_witness :
    (startJob (fun _ => false)
      [("a", { schedule := "* * * * *", url := "https://e.com/h",
               cronSecret := none, running := true })]
      "a" "https://e.com/h" "not-a-cron-expr" none).1 =
      Except.error "Invalid cron expression" ∧
    lookupA (startJob (fun _ => false)
      [("a", { schedule := "* * * * *", url := "https://e.com/h",
               cronSecret := none, running := true })]
      "a" "https://e.com/h" "not-a-cron-expr" none).2 "a" =
      some (stopTimer { schedule := "* * * * *", url := "https://e.com/h",
                        cronSecret := none, running := true }) :=
  start_invalid_reports_and_stops_old (fun _ => false)
    [("a", { schedule := "* * * * *", url := "https://e.com/h",
             cronSecret := none, running := true })]
    "a" "https://e.com/h" "not-a-cron-expr" none
    { schedule := "* * * * *", url := "https://e.com/h",
      cronSecret := none, running := true } rfl rfl

/-- C6: every fire issues a POST whose headers always carry
`Content-Type: application/json`, carry `Authorization: Bearer <secret>`
exactly when the secret is a non-empty string, and carry no Authorization
header at all when the secret is absent or empty. -/
theorem delivery_request_headers (url : String) (sec : Option String) :
    (fireRequest url sec).method = "POST" ∧
    ("Content-Type", "application/json") ∈ (fireRequest url sec).headers ∧
    ((sec = none ∨ sec = some "") →
      (fireRequest url sec).headers = [("Content-Type", "application/json")]) ∧
    (∀ s, sec = some s → s ≠ "" →
      (fireRequest url sec).headers =
        [("Content-Type", "application/json"), ("Authorization", "Bearer " ++ s)]) := by
  refine ⟨rfl, by simp [fireRequest], ?_, ?_⟩
  · rintro (rfl | rfl)
    · simp [fireRequest, jsTruthy]
    · simp [fireRequest, jsTruthy]
      decide
  · rintro s rfl hs
    simp [fireRequest, jsTruthy, String.isEmpty_iff, hs]

/-- C6 witness: with secret "tok" the Authorization header is sent; the
fire of a timer is this very request. -/
theorem delivery_request_headers_witness :
    (fireRequest "https://e.com/h" (some "tok")).headers =
      [("Content-Type", "application/json"), ("Authorization", "Bearer tok")] :=
  (delivery_request_headers "https://e.com/h" (some "tok")).2.2.2 "tok" rfl
    (by decide)

/-- C7: a delivery failure is caught inside the fire callback and logged
with a timestamp; the callback returns normally for every outcome and never
touches the active-timer map, so the job stays registered with its timer
(and schedule) intact. -/
theorem delivery_failure_does_not_touch_schedule (now id e : String)
    (active : ActiveMap) :
    (∀ outcome, (fireJob now id outcome active).2 = active) ∧
    (fireJob now id (.failure e) active).1.timestamp = now ∧
    (fireJob now id (.failure e) active).1.isError = true ∧
    (fireJob now id (.failure e) active).1.message =
      "Error executing job " ++ id ++ ": " ++ e ∧
    lookupA (fireJob now id (.failure e) active).2 id = lookupA active id := by
  refine ⟨?_, rfl, rfl, rfl, rfl⟩
  intro outcome
  cases outcome <;> rfl

/-- C2: GET /jobs redacts the secret at the boundary: no record in its
body carries a `cronSecret` key, and the listing is identical for any two
stores that agree up to their `cronSecret` values. -/
theorem list_never_exposes_secret (jobs1 jobs2 : JobMap)
    (h : jobs1.map (fun p => (p.1, eraseSecret p.2)) =
         jobs2.map (fun p => (p.1, eraseSecret p.2))) :
    listJobs jobs1 = listJobs jobs2 ∧
    ∀ entries, (listJobs jobs1).body = .obj entries →
      ∀ p ∈ entries, ∀ ks, Json.keys p.2 = some ks → "cronSecret" ∉ ks := by
  constructor
  · rw [listJobs_eq, listJobs_eq, h]
  · intro entries hb p hp ks hks
    rw [listJobs_eq] at hb
    injection hb with hb
    subst hb
    simp only [List.mem_map] at hp
    obtain ⟨q, hq, rfl⟩ := hp
    obtain ⟨q0, _, rfl⟩ := hq
    obtain ⟨u, s, cs, ca, cb⟩ := q0.2
    simp only [eraseSecret, encodeJobRecord, Json.keys, List.map_append,
      List.map_cons, List.map_nil, Option.some_inj] at hks
    subst hks
    simp

/-- C2 witness: the listing of a store holding a secret equals the listing
of the same store without it. -/
theorem list_never_exposes_secret_witness :
    listJobs [("a", { url := "https://e.com/h", schedule := "* * * * *",
                      cronSecret := some "tok", createdAt := "T",
                      createdBy := "JIMEX-X" })] =
    listJobs [("a", { url := "https://e.com/h", schedule := "* * * * *",
                      cronSecret := none, createdAt := "T",
                      createdBy := "JIMEX-X" })] :=
  (list_never_exposes_secret _ _ (by decide)).1

/-- C4: POST /jobs persists and schedules nothing when any of the three
validations fails (missing field, invalid schedule, invalid URL), answering
400; when all pass it persists the record under the id and hands it to
`startJob`, answering 200. -/
theorem post_validation_gate (cv uv : String → Bool) (now : String)
    (jobs : JobMap) (active : ActiveMap) (body : PostBody) :
    (postValid cv uv body = false →
      (postJob cv uv now jobs active body).jobs = jobs ∧
      (postJob cv uv now jobs active body).active = active ∧
      (postJob cv uv now jobs active body).response.status = 400) ∧
    (postValid cv uv body = true →
      (postJob cv uv now jobs active body).jobs =
        setKey jobs (body.id.getD "")
          { url := body.url.getD "", schedule := body.schedule.getD "",
            cronSecret := body.cronSecret, createdAt := now,
            createdBy := "JIMEX-X" } ∧
      (postJob cv uv now jobs active body).active =
        (startJob cv active (body.id.getD "") (body.url.getD "")
          (body.schedule.getD "") body.cronSecret).2 ∧
      (postJob cv uv now jobs active body).response.status = 200) := by
  obtain ⟨bid, burl, bsch, bsec⟩ := body
  constructor
  · intro hv
    simp only [postValid, Bool.and_eq_false_iff] at hv
    unfold postJob
    rcases hv with ((((h | h) | h) | h) | h) <;>
      simp [h, Bool.not_eq_true'] <;>
      by_cases h1 : jsTruthy bid <;>
      by_cases h2 : jsTruthy burl <;>
      by_cases h3 : jsTruthy bsch <;>
      simp_all <;>
      by_cases h4 : cv (bsch.getD "") <;>
      simp_all
  · intro hv
    simp only [postValid, Bool.and_eq_true] at hv
    obtain ⟨⟨⟨⟨h1, h2⟩, h3⟩, h4⟩, h5⟩ := hv
    unfold postJob
    simp [h1, h2, h3, h4, h5]

/-- C4 witness: an invalid schedule is rejected with 400 and changes no
state. -/
theorem post_validation_gate_witness :
    (postJob (fun _ => false) (fun _ => true) "T" [] []
      ⟨some "a", some "https://e.com/h", some "bad", none⟩).jobs = [] ∧
    (postJob (fun _ => false) (fun _ => true) "T" [] []
      ⟨some "a", some "https://e.com/h", some "bad", none⟩).active = [] ∧
    (postJob (fun _ => false) (fun _ => true) "T" [] []
      ⟨some "a", some "https://e.com/h", some "bad", none⟩).response.status = 400 :=
  (post_validation_gate (fun _ => false) (fun _ => true) "T" [] []
    ⟨some "a", some "https://e.com/h", some "bad", none⟩).1 (by decide)

/-- C8: the persisted representation is an object keyed by job id whose
records carry exactly `url, schedule, cronSecret?, createdAt, createdBy`;
saving then loading returns the same map, and `initializeJobs` re-arms a
running timer, with that entry's url, schedule and cronSecret, for every
persisted entry. -/
theorem persisted_roundtrip_and_replay (cv : String → Bool) (jobs : JobMap)
    (hcv : ∀ p ∈ jobs, cv p.2.schedule = true) (hnd : keysNodup jobs = true) :
    decodeJobs (encodeJobs jobs) = some jobs ∧
    (∀ r : JobRecord, Json.keys (encodeJobRecord r) =
      some (["url", "schedule"] ++
        (match r.cronSecret with | some _ => ["cronSecret"] | none => []) ++
        ["createdAt", "createdBy"])) ∧
    ∀ p ∈ jobs, lookupA (initializeJobs cv jobs) p.1 =
      some { schedule := p.2.schedule, url := p.2.url,
             cronSecret := p.2.cronSecret, running := true } := by
  refine ⟨decodeJobs_encodeJobs jobs, ?_, ?_⟩
  · intro r
    obtain ⟨u, s, cs, ca, cb⟩ := r
    cases cs <;> simp [encodeJobRecord, Json.keys]
  · intro p hp
    exact lookupA_initFold cv jobs [] hcv hnd p hp

/-- C8 witness: a two-job store round-trips through the file encoding, and
replay arms the first job's timer. -/
theorem persisted_roundtrip_and_replay_witness :
    decodeJobs (encodeJobs
      [("a", { url := "https://e.com/h", schedule := "* * * * *",
               cronSecret := some "tok", createdAt := "T", createdBy := "JIMEX-X" }),
       ("b", { url := "https://e.com/i", schedule := "0 * * * *",
               cronSecret := none, createdAt := "T", createdBy := "JIMEX-X" })]) =
      some
      [("a", { url := "https://e.com/h", schedule := "* * * * *",
               cronSecret := some "tok", createdAt := "T", createdBy := "JIMEX-X" }),
       ("b", { url := "https://e.com/i", schedule := "0 * * * *",
               cronSecret := none, createdAt := "T", createdBy := "JIMEX-X" })] ∧
    lookupA (initializeJobs (fun _ => true)
      [("a", { url := "https://e.com/h", schedule := "* * * * *",
               cronSecret := some "tok", createdAt := "T", createdBy := "JIMEX-X" }),
       ("b", { url := "https://e.com/i", schedule := "0 * * * *",
               cronSecret := none, createdAt := "T", createdBy := "JIMEX-X" })]) "a" =
      some { schedule := "* * * * *", url := "https://e.com/h",
             cronSecret := some "tok", running := true } :=
  ⟨(persisted_roundtrip_and_replay (fun _ => true)
      [("a", { url := "https://e.com/h", schedule := "* * * * *",
               cronSecret := some "tok", createdAt := "T", createdBy := "JIMEX-X" }),
       ("b", { url := "https://e.com/i", schedule := "0 * * * *",
               cronSecret := none, createdAt := "T", createdBy := "JIMEX-X" })]
      (by decide) (by decide)).1,
   (persisted_roundtrip_and_replay (fun _ => true)
      [("a", { url := "https://e.com/h", schedule := "* * * * *",
               cronSecret := some "tok", createdAt := "T", createdBy := "JIMEX-X" }),
       ("b", { url := "https://e.com/i", schedule := "0 * * * *",
               cronSecret := none, createdAt := "T", createdBy := "JIMEX-X" })]
      (by decide) (by decide)).2.2
     ("a", { url := "https://e.com/h", schedule := "* * * * *",
             cronSecret := some "tok", createdAt := "T", createdBy := "JIMEX-X" })
     (by decide)⟩

/-- C9: with a configured (non-empty) API key, the middleware passes a
request through unchanged exactly when its `x-api-key` header equals the
key, and answers 401 Unauthorized when the header is absent or different. -/
theorem api_key_gate (k : String) (req : Request) (hk : k ≠ "") :
    (apiKeyMiddleware (some k) req = Except.ok req ↔
      lookupA req.headers "x-api-key" = some k) ∧
    (lookupA req.headers "x-api-key" ≠ some k →
      apiKeyMiddleware (some k) req = Except.error unauthorizedResponse) := by
  have hpass : jsTruthy (some k) = true := by
    cases he : k.isEmpty with
    | false => simp [jsTruthy, he]
    | true => exact absurd ((String.isEmpty_iff k).mp he) hk
  constructor
  · constructor
    · intro h
      by_contra hne
      have : apiKeyMiddleware (some k) req = Except.error unauthorizedResponse := by
        unfold apiKeyMiddleware
        rw [if_pos (Or.inr hne)]
      rw [this] at h
      cases h
    · intro h
      unfold apiKeyMiddleware
      rw [if_neg]
      push_neg
      rw [h]
      exact ⟨by simp [hpass], rfl⟩
  · intro h
    unfold apiKeyMiddleware
    rw [if_pos (Or.inr h)]

/-- C9 witness: the matching key passes through unchanged; a missing header
is rejected with 401. -/
theorem api_key_gate_witness :
    apiKeyMiddleware (some "s3cr3t") ⟨[("x-api-key", "s3cr3t")]⟩ =
      Except.ok ⟨[("x-api-key", "s3cr3t")]⟩ ∧
    apiKeyMiddleware (some "s3cr3t") ⟨[]⟩ =
      Except.error unauthorizedResponse :=
  ⟨(api_key_gate "s3cr3t" ⟨[("x-api-key", "s3cr3t")]⟩ (by decide)).1.mpr
      (by decide),
   (api_key_gate "s3cr3t" ⟨[]⟩ (by decide)).2 (by decide)⟩

/-- C10: the success response of POST /jobs exposes only
`id, url, schedule, createdAt, createdBy` — never the cronSecret — and the
response (status and body) is the same for two requests that differ only in
their cronSecret. -/
theorem post_response_omits_secret (cv uv : String → Bool) (now : String)
    (jobs : JobMap) (active : ActiveMap) (body : PostBody)
    (sec1 sec2 : Option String) :
    ((postJob cv uv now jobs active { body with cronSecret := sec1 }).response.status =
       (postJob cv uv now jobs active { body with cronSecret := sec2 }).response.status ∧
     (postJob cv uv now jobs active { body with cronSecret := sec1 }).response.body =
       (postJob cv uv now jobs active { body with cronSecret := sec2 }).response.body) ∧
    (postValid cv uv body = true →
      (postJob cv uv now jobs active body).response.status = 200 ∧
      (postJob cv uv now jobs active body).response.body =
        .obj [("message", .str "Job added successfully"),
              ("job", .obj
                [("id", .str (body.id.getD "")),
                 ("url", .str (body.url.getD "")),
                 ("schedule", .str (body.schedule.getD "")),
                 ("createdAt", .str now),
                 ("createdBy", .str "JIMEX-X")])]) := by
  obtain ⟨bid, burl, bsch, bsec⟩ := body
  constructor
  · unfold postJob
    by_cases h1 : jsTruthy bid <;>
      by_cases h2 : jsTruthy burl <;>
      by_cases h3 : jsTruthy bsch <;>
      simp [h1, h2, h3] <;>
      by_cases h4 : cv (bsch.getD "") <;>
      by_cases h5 : uv (burl.getD "") <;>
      simp [h4, h5]
  · intro hv
    simp only [postValid, Bool.and_eq_true] at hv
    obtain ⟨⟨⟨⟨h1, h2⟩, h3⟩, h4⟩, h5⟩ := hv
    unfold postJob
    simp [h1, h2, h3, h4, h5]

/-- C10 witness: responses of two otherwise-identical valid requests, one
with a secret and one without, coincide, and the success body carries only
the five public fields. -/
theorem post_response_omits_secret_witness :
    (postJob (fun _ => true) (fun _ => true) "T" [] []
      ⟨some "a", some "https://e.com/h", some "* * * * *", some "tok"⟩).response.body =
      (postJob (fun _ => true) (fun _ => true) "T" [] []
        ⟨some "a", some "https://e.com/h", some "* * * * *", none⟩).response.body ∧
    (postJob (fun _ => true) (fun _ => true) "T" [] []
      ⟨some "a", some "https://e.com/h", some "* * * * *", some "tok"⟩).response.body =
      .obj [("message", .str "Job added successfully"),
            ("job", .obj
              [("id", .str "a"), ("url", .str "https://e.com/h"),
               ("schedule", .str "* * * * *"), ("createdAt", .str "T"),
               ("createdBy", .str "JIMEX-X")])] :=
  ⟨(post_response_omits_secret (fun _ => true) (fun _ => true) "T" [] []
      ⟨some "a", some "https://e.com/h", some "* * * * *", none⟩
      (some "tok") none).1.2,
   ((post_response_omits_secret (fun _ => true) (fun _ => true) "T" [] []
      ⟨some "a", some "https://e.com/h", some "* * * * *", some "tok"⟩
      (some "tok") none).2 (by decide)).2⟩

end CronServer
